import Mathlib

/-!
Verification of the SimpleMemory long-term-memory layer.

This file shallowly embeds the core of the repository: the file-backed
store (predined_memory.py: SimpleMemory.add_conversation, add_memory,
get_conversations, get_memories, get_stats, clear_all_data,
_init_storage) and the retrieval and prompt-assembly logic
(integrate_memory.py: search_relevant_memories,
create_memory_enhanced_prompt, get_gemini_response).

Modelling conventions:
  - Each JSON collection file is a Lean list of records; the store state is
    the pair of the two collections.  Every Python store operation is a full
    read of a collection, an in-memory transform and a full rewrite, so it
    is embedded as a pure function on that state.
  - Python string lower-casing, whitespace splitting (str.split with no
    argument) and substring containment (the in operator) are embedded as
    structural functions on the character list of the string.
  - Python list.sort(key=..., reverse=True) is a stable sort by descending
    key; it is embedded as List.mergeSort with the Bool relation
    comparing scores descending (Lean List.mergeSort is documented stable).
  - The external generation call (model.generate_content) may raise; it is
    embedded as a function returning Except, with the exception text as the
    error value.
-/

/-- One role/content pair inside a conversation, as stored in
conversations.json. -/
structure Message where
  role : String
  content : String
deriving DecidableEq, Repr

/-- A record of conversations.json: the dict built by add_conversation. -/
structure ConversationRecord where
  user_id : String
  timestamp : String
  messages : List Message
deriving DecidableEq, Repr

/-- A record of memories.json: the dict built by add_memory. -/
structure MemoryRecord where
  user_id : String
  memory : String
  timestamp : String
deriving DecidableEq, Repr

/-- The ephemeral scored record built by search_relevant_memories. -/
structure ScoredMemory where
  memory : String
  score : Nat
  timestamp : String
deriving DecidableEq, Repr

/-- The contents of the two collection files of a SimpleMemory store. -/
structure MemoryState where
  memories : List MemoryRecord
  conversations : List ConversationRecord
deriving DecidableEq, Repr

/-- A storage location as _init_storage sees it: each collection file is
either absent (none) or present with some contents. -/
structure Storage where
  memory_file : Option (List MemoryRecord)
  conversations_file : Option (List ConversationRecord)
deriving DecidableEq, Repr

/-- SimpleMemory._init_storage: for each of the two files, if it does not
exist, create it holding the empty JSON list; an existing file is left
untouched. -/
def init_storage (st : Storage) : Storage :=
  { memory_file :=
      match st.memory_file with
      | none => some []
      | some ms => some ms
    conversations_file :=
      match st.conversations_file with
      | none => some []
      | some cs => some cs }

/-- SimpleMemory.add_conversation: build the record, append it to the
conversations collection, write back, and return len(conversations) - 1. -/
def add_conversation (s : MemoryState) (messages : List Message)
    (user_id : String) (timestamp : String) : MemoryState × Nat :=
  let conversation : ConversationRecord :=
    { user_id := user_id, timestamp := timestamp, messages := messages }
  let conversations := s.conversations ++ [conversation]
  ({ s with conversations := conversations }, conversations.length - 1)

/-- SimpleMemory.add_memory: build the record, append it to the memories
collection, write back, and return len(memories) - 1. -/
def add_memory (s : MemoryState) (memory_text : String)
    (user_id : String) (timestamp : String) : MemoryState × Nat :=
  let memory : MemoryRecord :=
    { user_id := user_id, memory := memory_text, timestamp := timestamp }
  let memories := s.memories ++ [memory]
  ({ s with memories := memories }, memories.length - 1)

/-- The user_conversations local of SimpleMemory.get_conversations: the
conversations collection filtered to one user, in stored order. -/
def user_conversations (s : MemoryState) (user_id : String) :
    List ConversationRecord :=
  s.conversations.filter (fun conv => conv.user_id == user_id)

/-- SimpleMemory.get_conversations: Python returns
user_conversations[-limit:] if user_conversations else [].  The slice
[-limit:] is the last limit elements when limit is at least 1, but the
WHOLE list when limit = 0 (a -0 slice bound is the bound 0).  Dropping
length - limit elements (truncated subtraction) renders the positive
case; the limit = 0 case is rendered separately, faithful to Python. -/
def get_conversations (s : MemoryState) (user_id : String) (limit : Nat) :
    List ConversationRecord :=
  if (user_conversations s user_id).isEmpty then []
  else if limit = 0 then user_conversations s user_id
  else (user_conversations s user_id).drop
    ((user_conversations s user_id).length - limit)

/-- SimpleMemory.get_memories: all records of the memories collection whose
user_id equals the given user, in stored order. -/
def get_memories (s : MemoryState) (user_id : String) : List MemoryRecord :=
  s.memories.filter (fun mem => mem.user_id == user_id)

/-- SimpleMemory.get_stats: total record counts across all users. -/
def get_stats (s : MemoryState) : Nat × Nat :=
  (s.memories.length, s.conversations.length)

/-- SimpleMemory.clear_all_data: both collections replaced by empty ones. -/
def clear_all_data (_s : MemoryState) : MemoryState :=
  { memories := [], conversations := [] }

/-- Python str.lower on each character (ASCII range, as in Lean
Char.toLower and as exercised by every claim input). -/
def pyLower (s : String) : String :=
  String.mk (s.data.map Char.toLower)

/-- Leading-match test: true when the first list is an initial segment of
the second (the empty needle matches everything, as in Python). -/
def hasPre : List Char → List Char → Bool
  | [], _ => true
  | _ :: _, [] => false
  | a :: as, b :: bs => a == b && hasPre as bs

/-- Substring test over character lists: the needle occurs contiguously
somewhere in the haystack. -/
def hasSub (needle : List Char) : List Char → Bool
  | [] => hasPre needle []
  | b :: bs => hasPre needle (b :: bs) || hasSub needle bs

/-- The Python expression keyword in memory_text: keyword occurs
contiguously anywhere in memory_text. -/
def strContains (haystack needle : String) : Bool :=
  hasSub needle.data haystack.data

/-- Helper for pySplit: walk the characters, accumulating the current
token in reverse; whitespace closes the current token (if non-empty). -/
def splitWsAux : List Char → List Char → List String
  | [], acc => if acc = [] then [] else [String.mk acc.reverse]
  | c :: rest, acc =>
    if c.isWhitespace then
      if acc = [] then splitWsAux rest []
      else String.mk acc.reverse :: splitWsAux rest []
    else splitWsAux rest (c :: acc)

/-- Python str.split() with no argument: split on runs of whitespace,
producing no empty tokens. -/
def pySplit (s : String) : List String :=
  splitWsAux s.data []

/-- The query_keywords local of search_relevant_memories:
query.lower().split(). -/
def query_tokens (query : String) : List String :=
  pySplit (pyLower query)

/-- The score of search_relevant_memories:
sum(1 for keyword in query_keywords if keyword in memory_text), where
memory_text is the lower-cased memory text.  A keyword repeated in the
query is counted once per occurrence in the keyword list. -/
def memory_score (query_keywords : List String) (memory_text : String) : Nat :=
  query_keywords.countP (fun keyword => strContains memory_text keyword)

/-- search_relevant_memories of integrate_memory.py: fetch the memories of
the user, score each against the lower-cased whitespace-split query, keep
positive scores, stable-sort by score descending
(list.sort(key=score, reverse=True)), and take the first limit entries. -/
def search_relevant_memories (s : MemoryState) (query : String)
    (user_id : String) (limit : Nat) : List ScoredMemory :=
  let memories := get_memories s user_id
  let query_keywords := query_tokens query
  let relevant_memories :=
    (memories.map (fun m =>
      ({ memory := m.memory,
         score := memory_score query_keywords (pyLower m.memory),
         timestamp := m.timestamp } : ScoredMemory))).filter
      (fun sm => decide (0 < sm.score))
  (relevant_memories.mergeSort (fun a b => decide (b.score ≤ a.score))).take limit

/-- Ranked retrieval as the specification words it: score each record as
the count of query tokens occurring as substrings of the lower-cased text,
discard score 0, sort descending by score with ties in original order (the
stable insertion sort under the relation comparing scores descending), and
return the first limit entries.  Stated for comparison with
search_relevant_memories. -/
def spec_ranked (records : List MemoryRecord) (query : String)
    (limit : Nat) : List ScoredMemory :=
  let keywords := query_tokens query
  let scored := records.map (fun m =>
    ({ memory := m.memory,
       score := memory_score keywords (pyLower m.memory),
       timestamp := m.timestamp } : ScoredMemory))
  let surviving := scored.filter (fun sm => decide (0 < sm.score))
  (List.insertionSort (fun a b => b.score ≤ a.score) surviving).take limit

/-- The context accumulation loop of create_memory_enhanced_prompt:
for i, mem in enumerate(relevant_memories, 1) append the line
str(i) + ". " + mem.memory + newline. -/
def build_context : List ScoredMemory → Nat → String
  | [], _ => ""
  | mem :: rest, i =>
    toString i ++ ". " ++ mem.memory ++ "\n" ++ build_context rest (i + 1)

/-- create_memory_enhanced_prompt of integrate_memory.py: the query alone
when there are no relevant memories, otherwise the fixed instructional
template around the numbered context block and the verbatim query. -/
def create_memory_enhanced_prompt (user_query : String)
    (relevant_memories : List ScoredMemory) : String :=
  if relevant_memories.isEmpty then user_query
  else
    let context := "Here\x27s what you know about the user from previous conversations:\n\n"
      ++ build_context relevant_memories 1
    "Based on the following context about the user, please provide a personalized and relevant response:\n\nCONTEXT:\n"
      ++ context
      ++ "\n\nUSER QUERY: " ++ user_query
      ++ "\n\nPlease respond in a natural, conversational way that incorporates relevant details from the context to make your response more personal and helpful."

/-- Concatenation of a list of strings, used to state the context block as
the specification words it (one numbered line per memory). -/
def joinStrings : List String → String
  | [] => ""
  | s :: rest => s ++ joinStrings rest

/-- The context block as the specification words it: each memory on its
own line, numbered from 1, in the order given. -/
def spec_context (relevant_memories : List ScoredMemory) : String :=
  joinStrings ((List.enumFrom 1 relevant_memories).map
    (fun p => toString p.1 ++ ". " ++ p.2.memory ++ "\n"))

/-- The fixed leading part of the enhanced-prompt template. -/
def prompt_head : String :=
  "Based on the following context about the user, please provide a personalized and relevant response:\n\nCONTEXT:\n"

/-- The fixed heading of the context block. -/
def context_head : String :=
  "Here\x27s what you know about the user from previous conversations:\n\n"

/-- The fixed label in front of the verbatim query. -/
def prompt_query_label : String := "\n\nUSER QUERY: "

/-- The fixed trailing instruction of the enhanced-prompt template. -/
def prompt_tail : String :=
  "\n\nPlease respond in a natural, conversational way that incorporates relevant details from the context to make your response more personal and helpful."

/-- get_gemini_response of integrate_memory.py: the generation call is an
external function that either returns text or raises; an exception e is
turned into the display string built from the text of e. -/
def get_gemini_response (model : String → Except String String)
    (prompt : String) : String :=
  match model prompt with
  | Except.ok text => text
  | Except.error e => "Error generating response: " ++ e

/-- The three-memory store of the ranker scoring example (user john). -/
def exampleState : MemoryState :=
  { memories :=
      [ { user_id := "john", memory := "John loves hiking", timestamp := "t1" },
        { user_id := "john", memory := "John works in AI", timestamp := "t2" },
        { user_id := "john", memory := "The weather is hot", timestamp := "t3" } ],
    conversations := [] }

/-- A generation collaborator that always fails, for the error-path
witness. -/
def failing_model : String → Except String String :=
  fun _ => Except.error "boom"

/-- A store holding one conversation for user a, exhibiting the limit = 0
slice behaviour of get_conversations. -/
def limitZeroState : MemoryState :=
  { memories := [], conversations := [{ user_id := "a", timestamp := "t", messages := [] }] }

/-- A store holding records of two distinct users, for isolation and
tail-slice witnesses. -/
def isoState : MemoryState :=
  { memories := [{ user_id := "a", memory := "ma", timestamp := "t1" },
                 { user_id := "b", memory := "mb", timestamp := "t2" }],
    conversations := [{ user_id := "a", timestamp := "t3", messages := [] },
                      { user_id := "b", timestamp := "t4", messages := [] }] }

/-- Inserting an element into an appended list when it is strictly below
every score of the first part and at least every score of the second part
places it exactly between the two parts. -/
theorem orderedInsert_append (a : ScoredMemory) :
    ∀ (l₁ l₂ : List ScoredMemory), (∀ b ∈ l₁, ¬ (b.score ≤ a.score)) →
      (∀ b ∈ l₂, b.score ≤ a.score) →
      List.orderedInsert (fun x y => y.score ≤ x.score) a (l₁ ++ l₂) = l₁ ++ a :: l₂
  | [], l₂, _, h₂ => by
    cases l₂ with
    | nil => simp [List.orderedInsert]
    | cons c cs =>
      simp only [List.nil_append, List.orderedInsert]
      rw [if_pos (h₂ c (by simp))]
  | b :: bs, l₂, h₁, h₂ => by
    have hb : ¬ (b.score ≤ a.score) := h₁ b (by simp)
    simp only [List.cons_append, List.orderedInsert, List.append_eq]
    rw [if_neg hb, orderedInsert_append a bs l₂ (fun x hx => h₁ x (by simp [hx])) h₂]

/-- The stable merge sort under the Bool relation comparing scores
descending agrees with the stable insertion sort under the corresponding
Prop relation: both are THE stable descending sort by score. -/
theorem mergeSort_score_desc : ∀ (l : List ScoredMemory),
    l.mergeSort (fun a b => decide (b.score ≤ a.score)) =
      List.insertionSort (fun a b => b.score ≤ a.score) l := by
  have htrans : ∀ (x y z : ScoredMemory),
      (fun a b : ScoredMemory => decide (b.score ≤ a.score)) x y →
      (fun a b : ScoredMemory => decide (b.score ≤ a.score)) y z →
      (fun a b : ScoredMemory => decide (b.score ≤ a.score)) x z := by
    intro x y z h1 h2
    simp only [decide_eq_true_eq] at *
    omega
  have htotal : ∀ (x y : ScoredMemory),
      ((fun a b : ScoredMemory => decide (b.score ≤ a.score)) x y ||
       (fun a b : ScoredMemory => decide (b.score ≤ a.score)) y x) := by
    intro x y
    simp only [Bool.or_eq_true, decide_eq_true_eq]
    omega
  intro l
  induction l with
  | nil => simp [List.mergeSort]
  | cons a l ih =>
    obtain ⟨l₁, l₂, h₁, h₂, h₃⟩ := List.mergeSort_cons htrans htotal a l
    have hsorted := List.sorted_mergeSort htrans htotal (a :: l)
    rw [h₁] at hsorted
    have hl₂ : ∀ b ∈ l₂, b.score ≤ a.score := by
      intro b hb
      have hp : (a :: l₂).Pairwise
          (fun x y : ScoredMemory => (decide (y.score ≤ x.score) : Bool) = true) := by
        refine hsorted.sublist ?_
        exact (List.sublist_append_right l₁ (a :: l₂))
      have := List.rel_of_pairwise_cons hp hb
      simpa using this
    have hl₁ : ∀ b ∈ l₁, ¬ (b.score ≤ a.score) := by
      intro b hb
      have := h₃ b hb
      simpa using this
    rw [h₁, List.insertionSort, ← ih, h₂]
    exact (orderedInsert_append a l₁ l₂ hl₁ hl₂).symm

/-- The source ranker equals the specification ranker on every input. -/
theorem search_eq_spec_ranked (s : MemoryState) (query user_id : String)
    (limit : Nat) :
    search_relevant_memories s query user_id limit =
      spec_ranked (get_memories s user_id) query limit := by
  simp only [search_relevant_memories, spec_ranked]
  rw [mergeSort_score_desc]

/-- Claim C1: for every query and store, search_relevant_memories scores
each record of the user as the count of query tokens (lower-cased query
split on whitespace, repetitions counted) occurring as substrings of the
lower-cased memory text, discards score 0, stable-sorts by score
descending, and takes the first limit entries; on the three-memory example
with query ai work it returns exactly the record John works in AI with
score 2. -/
theorem search_relevant_memories_matches_spec :
    (∀ (s : MemoryState) (query user_id : String) (limit : Nat),
      search_relevant_memories s query user_id limit =
        spec_ranked (get_memories s user_id) query limit) ∧
    search_relevant_memories exampleState "ai work" "john" 5 =
      [{ memory := "John works in AI", score := 2, timestamp := "t2" }] := by
  refine ⟨search_eq_spec_ranked, ?_⟩
  rw [search_eq_spec_ranked]
  decide

/-- Claim C2 counterexample: add_memory with an empty memory text and
add_conversation with an empty messages sequence do not surface any error;
each silently appends the malformed record to an empty store and returns
record id 0. -/
theorem append_accepts_empty_input :
    (add_memory { memories := [], conversations := [] } "" "user1" "ts").fst.memories =
      [{ user_id := "user1", memory := "", timestamp := "ts" }] ∧
    (add_memory { memories := [], conversations := [] } "" "user1" "ts").snd = 0 ∧
    (add_conversation { memories := [], conversations := [] } [] "user1" "ts").fst.conversations =
      [{ user_id := "user1", timestamp := "ts", messages := [] }] ∧
    (add_conversation { memories := [], conversations := [] } [] "user1" "ts").snd = 0 :=
  ⟨rfl, rfl, rfl, rfl⟩

/-- Claim C2 amended: add_conversation and add_memory perform no input
validation; empty memory text and an empty messages sequence are appended
as given, and a record id is returned, on every store state. -/
theorem append_never_validates (s : MemoryState) (user_id timestamp : String) :
    (add_memory s "" user_id timestamp).fst.memories =
      s.memories ++ [{ user_id := user_id, memory := "", timestamp := timestamp }] ∧
    (add_memory s "" user_id timestamp).snd = s.memories.length ∧
    (add_conversation s [] user_id timestamp).fst.conversations =
      s.conversations ++ [{ user_id := user_id, timestamp := timestamp, messages := [] }] ∧
    (add_conversation s [] user_id timestamp).snd = s.conversations.length := by
  refine ⟨rfl, ?_, rfl, ?_⟩ <;> simp [add_memory, add_conversation]

/-- Claim C3 counterexample: with one stored conversation for user a,
get_conversations with limit = 0 returns that conversation (the Python
slice with bound -0 is the whole list), not the empty sequence. -/
theorem get_conversations_limit_zero_not_empty :
    get_conversations limitZeroState "a" 0 =
      [{ user_id := "a", timestamp := "t", messages := [] }] ∧
    get_conversations limitZeroState "a" 0 ≠ [] := by
  refine ⟨by decide, by decide⟩

/-- Claim C3 amended: for every user and every limit of at least 1,
get_conversations returns a suffix of the stored conversations of that
user in insertion order, of length the minimum of limit and the number of
those conversations, hence never more than limit records (and all of them
when fewer than limit exist, empty when none exist).  For limit = 0 the
code instead returns ALL conversations of the user. -/
theorem get_conversations_tail_slice (s : MemoryState) (u : String)
    (limit : Nat) (h : 1 ≤ limit) :
    List.IsSuffix (get_conversations s u limit) (user_conversations s u) ∧
    (get_conversations s u limit).length = min limit (user_conversations s u).length ∧
    (get_conversations s u limit).length ≤ limit := by
  have hlim : ¬ (limit = 0) := by omega
  by_cases he : (user_conversations s u).isEmpty
  · have he' : user_conversations s u = [] := by simpa using he
    simp [get_conversations, he', hlim]
  · have he'' : (user_conversations s u).isEmpty = false := by simpa using he
    simp only [get_conversations, he'', Bool.false_eq_true, if_false, if_neg hlim]
    refine ⟨List.drop_suffix _ _, ?_, ?_⟩ <;> simp [List.length_drop] <;> omega

/-- Witness for the amended claim C3 at a concrete store and limit 2. -/
theorem get_conversations_tail_slice_witness :
    (1 ≤ 2) ∧
    (List.IsSuffix (get_conversations isoState "a" 2) (user_conversations isoState "a") ∧
     (get_conversations isoState "a" 2).length = min 2 (user_conversations isoState "a").length ∧
     (get_conversations isoState "a" 2).length ≤ 2) :=
  ⟨by decide, get_conversations_tail_slice isoState "a" 2 (by decide)⟩

/-- Claim C4: composing a prompt with an empty ranked-memory list returns
the query unchanged, for every query. -/
theorem prompt_empty_identity (q : String) :
    create_memory_enhanced_prompt q [] = q := rfl

/-- Membership in the filtered per-user conversation list forces the
user_id field. -/
theorem mem_user_conversations {s : MemoryState} {u : String}
    {r : ConversationRecord} (hr : r ∈ user_conversations s u) : r.user_id = u := by
  simp only [user_conversations, List.mem_filter, beq_iff_eq] at hr
  exact hr.2

/-- Membership in a get_conversations result forces the user_id field. -/
theorem mem_get_conversations {s : MemoryState} {u : String} {limit : Nat}
    {r : ConversationRecord} (hr : r ∈ get_conversations s u limit) :
    r.user_id = u := by
  unfold get_conversations at hr
  split at hr
  · simp at hr
  · split at hr
    · exact mem_user_conversations hr
    · exact mem_user_conversations (List.mem_of_mem_drop hr)

/-- Every get_conversations result is a sublist of the full conversations
collection, hence in original insertion order. -/
theorem get_conversations_sublist (s : MemoryState) (u : String) (limit : Nat) :
    (get_conversations s u limit).Sublist s.conversations := by
  unfold get_conversations
  split
  · exact List.nil_sublist _
  · split
    · exact List.filter_sublist _
    · exact (List.drop_sublist _ _).trans (List.filter_sublist _)

/-- Claim C5: records of a distinct user a never appear in get_memories
or get_conversations for user b, and both listings are sublists of the
full collections, so filtering preserves relative insertion order. -/
theorem user_isolation (s : MemoryState) (a b : String) (hab : a ≠ b) :
    (∀ r ∈ get_memories s b, r.user_id ≠ a) ∧
    (∀ (limit : Nat), ∀ r ∈ get_conversations s b limit, r.user_id ≠ a) ∧
    (get_memories s b).Sublist s.memories ∧
    (∀ (limit : Nat), (get_conversations s b limit).Sublist s.conversations) := by
  refine ⟨?_, ?_, List.filter_sublist _, fun limit => get_conversations_sublist s b limit⟩
  · intro r hr
    have hb : r.user_id = b := by
      simp only [get_memories, List.mem_filter, beq_iff_eq] at hr
      exact hr.2
    rw [hb]
    exact fun hba => hab hba.symm
  · intro limit r hr
    rw [mem_get_conversations hr]
    exact fun hba => hab hba.symm

/-- Witness for claim C5 at a concrete two-user store. -/
theorem user_isolation_witness :
    (("a" : String) ≠ "b") ∧
    ((∀ r ∈ get_memories isoState "b", r.user_id ≠ "a") ∧
     (∀ (limit : Nat), ∀ r ∈ get_conversations isoState "b" limit, r.user_id ≠ "a") ∧
     (get_memories isoState "b").Sublist isoState.memories ∧
     (∀ (limit : Nat), (get_conversations isoState "b" limit).Sublist isoState.conversations)) :=
  ⟨by decide, user_isolation isoState "a" "b" (by decide)⟩

/-- Claim C6: initialization creates each absent collection as empty and
keeps a present collection unchanged (first conjunct), is idempotent on
every storage state (second conjunct), and on the empty location yields
two empty collections, so running it twice there equals running it
once. -/
theorem init_storage_spec :
    (∀ st : Storage, init_storage st =
      { memory_file := some (st.memory_file.getD []),
        conversations_file := some (st.conversations_file.getD []) }) ∧
    (∀ st : Storage, init_storage (init_storage st) = init_storage st) ∧
    init_storage { memory_file := none, conversations_file := none } =
      { memory_file := some [], conversations_file := some [] } := by
  refine ⟨?_, ?_, rfl⟩
  · intro st
    cases st with
    | mk mf cf => cases mf <;> cases cf <;> rfl
  · intro st
    cases st with
    | mk mf cf => cases mf <;> cases cf <;> rfl

/-- Claim C7: when the generation collaborator fails with exception text
e, get_gemini_response returns the display string built from e instead of
propagating the failure. -/
theorem get_gemini_response_wraps_error (model : String → Except String String)
    (prompt e : String) (h : model prompt = Except.error e) :
    get_gemini_response model prompt = "Error generating response: " ++ e := by
  simp [get_gemini_response, h]

/-- Witness for claim C7 at a concrete always-failing collaborator. -/
theorem get_gemini_response_wraps_error_witness :
    failing_model "hello" = Except.error "boom" ∧
    get_gemini_response failing_model "hello" = "Error generating response: boom" :=
  ⟨rfl, get_gemini_response_wraps_error failing_model "hello" "boom" rfl⟩

/-- Claim C8: both append operations return the zero-based position of the
new record, which equals the number of records stored in that collection
(across all users) before the append. -/
theorem append_returns_prior_length (s : MemoryState) (messages : List Message)
    (memory_text user_id timestamp : String) :
    (add_conversation s messages user_id timestamp).snd = s.conversations.length ∧
    (add_memory s memory_text user_id timestamp).snd = s.memories.length := by
  constructor <;> simp [add_conversation, add_memory]

/-- The context loop equals the 1-line-per-memory rendering: line i of the
block is the decimal of i, a dot and space, the memory text verbatim, and
a newline, in the order given. -/
theorem build_context_eq : ∀ (ms : List ScoredMemory) (i : Nat),
    build_context ms i = joinStrings ((List.enumFrom i ms).map
      (fun p => toString p.1 ++ ". " ++ p.2.memory ++ "\n"))
  | [], _ => rfl
  | m :: rest, i => by
    simp only [build_context, List.enumFrom, List.map_cons, joinStrings]
    rw [build_context_eq rest (i + 1)]

/-- The specification context block equals the source context loop started
at 1. -/
theorem spec_context_eq_build (ms : List ScoredMemory) :
    spec_context ms = build_context ms 1 :=
  (build_context_eq ms 1).symm

/-- Claim C9: for a non-empty ranked list the payload is the fixed
template around the context block (each memory verbatim on its own 1-based
numbered line, in the order given, not re-sorted) and the verbatim query;
in particular a two-element ranked list with scores 3 and 1 renders its
first memory before its second. -/
theorem prompt_renders_in_order (user_query : String)
    (ms : List ScoredMemory) (h : ms ≠ []) :
    create_memory_enhanced_prompt user_query ms =
      prompt_head ++ (context_head ++ spec_context ms)
        ++ prompt_query_label ++ user_query ++ prompt_tail ∧
    (∀ m1 m2 t1 t2,
      ms = [{ memory := m1, score := 3, timestamp := t1 },
            { memory := m2, score := 1, timestamp := t2 }] →
      spec_context ms = "1. " ++ m1 ++ "\n" ++ ("2. " ++ m2 ++ "\n")) := by
  constructor
  · cases ms with
    | nil => exact absurd rfl h
    | cons m rest =>
      rw [spec_context_eq_build]
      rfl
  · intro m1 m2 t1 t2 hms
    subst hms
    simp only [spec_context, List.enumFrom, List.map_cons, List.map_nil,
      joinStrings, String.append_empty]
    rfl

/-- Witness for claim C9 at a concrete two-memory ranked list. -/
theorem prompt_renders_in_order_witness :
    (([{ memory := "m1", score := 3, timestamp := "t1" },
       { memory := "m2", score := 1, timestamp := "t2" }] : List ScoredMemory) ≠ []) ∧
    (create_memory_enhanced_prompt "q"
        [{ memory := "m1", score := 3, timestamp := "t1" },
         { memory := "m2", score := 1, timestamp := "t2" }] =
      prompt_head ++ (context_head ++ spec_context
          [{ memory := "m1", score := 3, timestamp := "t1" },
           { memory := "m2", score := 1, timestamp := "t2" }])
        ++ prompt_query_label ++ "q" ++ prompt_tail ∧
     (∀ m1 m2 t1 t2,
       ([{ memory := "m1", score := 3, timestamp := "t1" },
         { memory := "m2", score := 1, timestamp := "t2" }] : List ScoredMemory) =
         [{ memory := m1, score := 3, timestamp := t1 },
          { memory := m2, score := 1, timestamp := t2 }] →
       spec_context [{ memory := "m1", score := 3, timestamp := "t1" },
                     { memory := "m2", score := 1, timestamp := "t2" }] =
         "1. " ++ m1 ++ "\n" ++ ("2. " ++ m2 ++ "\n"))) :=
  ⟨by decide, prompt_renders_in_order "q"
    [{ memory := "m1", score := 3, timestamp := "t1" },
     { memory := "m2", score := 1, timestamp := "t2" }] (by decide)⟩

/-- Claim C10: add_memory touches only the memories collection and
add_conversation only the conversations collection; each appends exactly
one record at the end, preserving all previous records and their order. -/
theorem append_frame_property (s : MemoryState) (messages : List Message)
    (memory_text user_id timestamp : String) :
    (add_memory s memory_text user_id timestamp).fst.conversations = s.conversations ∧
    (add_memory s memory_text user_id timestamp).fst.memories =
      s.memories ++ [{ user_id := user_id, memory := memory_text, timestamp := timestamp }] ∧
    (add_conversation s messages user_id timestamp).fst.memories = s.memories ∧
    (add_conversation s messages user_id timestamp).fst.conversations =
      s.conversations ++ [{ user_id := user_id, timestamp := timestamp, messages := messages }] :=
  ⟨rfl, rfl, rfl, rfl⟩
